import Mathlib

/-!
Verification of the gorkflow workflow engine against its specification.

This file gives a shallow embedding of the parts of the gorkflow codebase
that the checked properties concern: the pure backoff calculator
(`CalculateBackoff`), the in-memory store (`MemoryStore` from the `store`
package), the per-run state and step-data accessors (`stateAccessor` and
`stepAccessor`), and the builder's config propagation in
`WorkflowBuilder.Build`.

Go maps are modelled as association lists (`lookupKV` / `insertKV` /
`eraseKV`), Go byte slices as `List Nat`, `time.Time` as an integer
nanosecond timestamp, and `time.Duration` as an integer number of
nanoseconds.  Go `json.Marshal` / `json.Unmarshal` (an external library)
is abstracted as a `Codec`: a pair of an encoder and a partial decoder,
with round-tripping stated as a hypothesis where a property needs it.
Store methods that mutate the receiver are modelled as state transformers
returning `Except StoreErr Unit × MemoryStore`; read-only methods return
`Except StoreErr α` and leave the store unchanged, exactly as the Go code
does (taking an `RLock` and deep-copying results, which is the identity
here).
-/

namespace Gorkflow

/-- Byte strings (Go `[]byte`), as lists of byte values. -/
abbrev Bytes := List Nat

/-- Lookup in an association list, modelling Go map indexing `m[k]`. -/
def lookupKV {α : Type} (l : List (String × α)) (k : String) : Option α :=
  match l with
  | [] => none
  | (k', v) :: rest => if k' = k then some v else lookupKV rest k

/-- Insert or replace in an association list, modelling Go map assignment
`m[k] = v`. -/
def insertKV {α : Type} (l : List (String × α)) (k : String) (v : α) :
    List (String × α) :=
  match l with
  | [] => [(k, v)]
  | (k', v') :: rest =>
    if k' = k then (k, v) :: rest else (k', v') :: insertKV rest k v

/-- Remove a key from an association list, modelling Go `delete(m, k)`. -/
def eraseKV {α : Type} (l : List (String × α)) (k : String) :
    List (String × α) :=
  match l with
  | [] => []
  | (k', v') :: rest =>
    if k' = k then eraseKV rest k else (k', v') :: eraseKV rest k

theorem lookupKV_insertKV {α : Type} (l : List (String × α)) (k : String)
    (v : α) : lookupKV (insertKV l k v) k = some v := by
  induction l with
  | nil => simp [insertKV, lookupKV]
  | cons hd tl ih =>
    obtain ⟨k', v'⟩ := hd
    by_cases h : k' = k
    · simp [insertKV, lookupKV, h]
    · simp [insertKV, lookupKV, h, ih]

theorem lookupKV_insertKV_ne {α : Type} (l : List (String × α))
    (k k₀ : String) (v : α) (hne : k ≠ k₀) :
    lookupKV (insertKV l k v) k₀ = lookupKV l k₀ := by
  induction l with
  | nil => simp [insertKV, lookupKV, hne]
  | cons hd tl ih =>
    obtain ⟨k', v'⟩ := hd
    by_cases h : k' = k
    · subst h
      simp [insertKV, lookupKV, hne]
    · simp [insertKV, lookupKV, h, ih]

theorem lookupKV_eraseKV {α : Type} (l : List (String × α)) (k : String) :
    lookupKV (eraseKV l k) k = none := by
  induction l with
  | nil => simp [eraseKV, lookupKV]
  | cons hd tl ih =>
    obtain ⟨k', v'⟩ := hd
    by_cases h : k' = k
    · simp [eraseKV, h, ih]
    · simp [eraseKV, lookupKV, h, ih]

/-! Run and step statuses, from `types.go` (`RunStatus`, `StepStatus`). -/

/-- Status of a workflow run (Go `RunStatus`, a string enum). -/
inductive RunStatus where
  | pending
  | running
  | completed
  | failed
  | cancelled
deriving DecidableEq, Repr

/-- Go `RunStatus.IsTerminal`: true for COMPLETED, FAILED and CANCELLED. -/
def RunStatus.IsTerminal (s : RunStatus) : Bool :=
  s = .completed || s = .failed || s = .cancelled

/-- Status of a step execution (Go `StepStatus`, a string enum). -/
inductive StepStatus where
  | pending
  | running
  | completed
  | failed
  | skipped
  | retrying
deriving DecidableEq, Repr

/-- Go `StepStatus.IsTerminal`: true for COMPLETED, FAILED and SKIPPED. -/
def StepStatus.IsTerminal (s : StepStatus) : Bool :=
  s = .completed || s = .failed || s = .skipped

/-- Error carried on a failed run.  Modelled from the spec: the Go
`WorkflowError` struct lives in an errors file that is not among the
provided sources; per spec section 7 it carries a kind, a message and
optional details, which is also how `MemoryStore.UpdateRunStatus` copies
it field by field. -/
structure WorkflowError where
  kind : String
  message : String
  details : Option (List (String × String))
deriving DecidableEq, Repr

/-- A workflow run record (Go `WorkflowRun`).  Times are integer
nanosecond timestamps; `progress` (Go `float64`) is carried as a rational
since it is only stored and copied, never computed on, in the code under
study. -/
structure WorkflowRun where
  runID : String
  workflowID : String
  workflowVersion : String
  status : RunStatus
  progress : Rat
  createdAt : Int
  startedAt : Option Int
  completedAt : Option Int
  updatedAt : Int
  input : Option Bytes
  output : Option Bytes
  error : Option WorkflowError
  resourceID : String
  tags : Option (List (String × String))
  context : Option Bytes
deriving DecidableEq, Repr

/-- A per-run step execution record (Go `StepExecution`). -/
structure StepExecution where
  runID : String
  stepID : String
  executionIndex : Int
  status : StepStatus
  startedAt : Option Int
  completedAt : Option Int
  durationMs : Int
  input : Option Bytes
  output : Option Bytes
  error : Option String
  attempt : Int
  createdAt : Int
  updatedAt : Int
deriving DecidableEq, Repr

/-! Backoff calculation, from `CalculateBackoff` in the root package
(wrapped unchanged by `engine.calculateBackoff` in `engine/backoff.go`). -/

/-- The mathematical (non-wrapping) nanosecond value of a millisecond
count, i.e. what `time.Duration(ms) * time.Millisecond` denotes when it
does not overflow; used to state the backoff formulas. -/
def durationOfMs (ms : Int) : Int := ms * 1000000

/-- Two's-complement wrap of an integer into the `int64` range
`[-2^63, 2^63)`, written with the numerals 9223372036854775808 = 2^63 and
18446744073709551616 = 2^64.  Go `int` and `time.Duration` are both
64-bit, and their multiplication (and `1 << s`, for any shift count `s`,
which yields `2^s mod 2^64`) wraps this way. -/
def toInt64 (n : Int) : Int :=
  (n + 9223372036854775808) % 18446744073709551616 - 9223372036854775808

/-- Go `CalculateBackoff(baseDelayMs, attempt, strategy)`: returns 0 for
attempt 0; otherwise EXPONENTIAL gives `baseDelay * 2^(attempt-1)` (Go
computes the multiplier as `1 << (attempt - 1)`), LINEAR gives
`baseDelay * attempt`, NONE gives 0, and any other strategy string falls
through to the LINEAR formula.  All arithmetic is Go `int`/
`time.Duration` 64-bit arithmetic, so every multiplication and the shift
wrap through `toInt64` (Go shifts by any count `s`, producing
`2^s mod 2^64`; the model is stated for nonnegative attempts — in Go a
negative attempt would panic on the negative shift count in the
EXPONENTIAL branch). -/
def CalculateBackoff (baseDelayMs : Int) (attempt : Int) (strategy : String) :
    Int :=
  if attempt = 0 then 0
  else
    let baseDelay : Int := toInt64 (baseDelayMs * 1000000)
    if strategy = "EXPONENTIAL" then
      toInt64 (baseDelay * toInt64 ((2 : Int) ^ (attempt - 1).toNat))
    else if strategy = "LINEAR" then
      toInt64 (baseDelay * attempt)
    else if strategy = "NONE" then
      0
    else
      toInt64 (baseDelay * attempt)

/-- Go `engine.calculateBackoff`, a direct wrapper around
`CalculateBackoff`. -/
def engineCalculateBackoff (baseDelayMs : Int) (attempt : Int)
    (strategy : String) : Int :=
  CalculateBackoff baseDelayMs attempt strategy

example : CalculateBackoff 1000 0 "EXPONENTIAL" = 0 := by decide
example : CalculateBackoff 1000 3 "LINEAR" = 3000000000 := by decide
example : CalculateBackoff 1000 3 "EXPONENTIAL" = 4000000000 := by decide
example : CalculateBackoff 1000 3 "NONE" = 0 := by decide
example : CalculateBackoff 1000 3 "BOGUS" = 3000000000 := by decide

/-! Store errors.  The Go sentinel errors `ErrRunNotFound`,
`ErrStepExecutionNotFound`, `ErrStepOutputNotFound` and `ErrStateNotFound`
are distinct values; every other store failure is an opaque error value. -/

/-- Store error values: one dedicated NotFound per entity kind plus
opaque errors (Go `fmt.Errorf` results). -/
inductive StoreErr where
  | runNotFound
  | stepExecutionNotFound
  | stepOutputNotFound
  | stateNotFound
  | generic (msg : String)
deriving DecidableEq, Repr

/-! Sorting of step executions by `executionIndex`, modelling the
`sort.Slice(executions, …ExecutionIndex <…)` call in
`MemoryStore.ListStepExecutions`.  Go's sort produces some nondecreasing
reordering (ties are broken arbitrarily); insertion sort is one such
reordering. -/

/-- Ordering of step executions used by `MemoryStore.ListStepExecutions`. -/
def execLE (a b : StepExecution) : Prop :=
  a.executionIndex ≤ b.executionIndex

instance : DecidablePred fun p : StepExecution × StepExecution => execLE p.1 p.2 :=
  fun p => inferInstanceAs (Decidable (p.1.executionIndex ≤ p.2.executionIndex))

/-- Insert a step execution into a list sorted by `executionIndex`. -/
def insertByIndex (e : StepExecution) : List StepExecution → List StepExecution
  | [] => [e]
  | x :: xs =>
    if e.executionIndex ≤ x.executionIndex then e :: x :: xs
    else x :: insertByIndex e xs

/-- Insertion sort by `executionIndex`, the model of the `sort.Slice`
call in `MemoryStore.ListStepExecutions`. -/
def sortExecs : List StepExecution → List StepExecution
  | [] => []
  | x :: xs => insertByIndex x (sortExecs xs)

theorem insertByIndex_perm (e : StepExecution) (l : List StepExecution) :
    List.Perm (insertByIndex e l) (e :: l) := by
  induction l with
  | nil => simp [insertByIndex]
  | cons x xs ih =>
    by_cases h : e.executionIndex ≤ x.executionIndex
    · simp [insertByIndex, h]
    · simp only [insertByIndex, h, if_false]
      exact (List.Perm.cons x ih).trans (List.Perm.swap e x xs)

theorem sortExecs_perm (l : List StepExecution) :
    List.Perm (sortExecs l) l := by
  induction l with
  | nil => simp [sortExecs]
  | cons x xs ih =>
    exact (insertByIndex_perm x (sortExecs xs)).trans (List.Perm.cons x ih)

theorem insertByIndex_pairwise (e : StepExecution) (l : List StepExecution)
    (h : l.Pairwise execLE) : (insertByIndex e l).Pairwise execLE := by
  induction l with
  | nil => simp [insertByIndex, List.Pairwise.nil]
  | cons x xs ih =>
    rcases List.pairwise_cons.mp h with ⟨hx, hxs⟩
    by_cases hle : e.executionIndex ≤ x.executionIndex
    · simp only [insertByIndex, hle, if_true]
      refine List.pairwise_cons.mpr ⟨?_, h⟩
      intro b hb
      rcases List.mem_cons.mp hb with hb | hb
      · subst hb; exact hle
      · exact le_trans hle (hx b hb)
    · simp only [insertByIndex, hle, if_false]
      refine List.pairwise_cons.mpr ⟨?_, ih hxs⟩
      intro b hb
      have hb' : b ∈ e :: xs := (insertByIndex_perm e xs).mem_iff.mp hb
      rcases List.mem_cons.mp hb' with hb' | hb'
      · subst hb'
        exact le_of_lt (lt_of_not_le hle)
      · exact hx b hb'

theorem sortExecs_pairwise (l : List StepExecution) :
    (sortExecs l).Pairwise execLE := by
  induction l with
  | nil => simp [sortExecs]
  | cons x xs ih => exact insertByIndex_pairwise x (sortExecs xs) ih

/-! The in-memory store (`MemoryStore` in the `store` package).  Each Go
map is an association list; `deepCopyRun` / `deepCopyStepExecution` and
the byte-slice copies are the identity in a pure model, so copying is
omitted. -/

/-- The in-memory store state: runs keyed by runID, and three
run-scoped maps for step executions, step outputs and state KV. -/
structure MemoryStore where
  runs : List (String × WorkflowRun)
  stepExecutions : List (String × List (String × StepExecution))
  stepOutputs : List (String × List (String × Bytes))
  state : List (String × List (String × Bytes))
deriving DecidableEq, Repr

/-- The store produced by `NewMemoryStore`: all maps empty. -/
def MemoryStore.newStore : MemoryStore :=
  { runs := [], stepExecutions := [], stepOutputs := [], state := [] }

/-- Go `MemoryStore.CreateRun`: errors if the runID already exists;
otherwise stores a copy of the run and initializes the three per-run
maps. -/
def MemoryStore.CreateRun (s : MemoryStore) (run : WorkflowRun) :
    Except StoreErr Unit × MemoryStore :=
  match lookupKV s.runs run.runID with
  | some _ =>
    (.error (.generic ("workflow run " ++ run.runID ++ " already exists")), s)
  | none =>
    (.ok (),
      { runs := insertKV s.runs run.runID run,
        stepExecutions := insertKV s.stepExecutions run.runID [],
        stepOutputs := insertKV s.stepOutputs run.runID [],
        state := insertKV s.state run.runID [] })

/-- Go `MemoryStore.GetRun`: dedicated NotFound if absent, else a copy of
the stored record. -/
def MemoryStore.GetRun (s : MemoryStore) (runID : String) :
    Except StoreErr WorkflowRun :=
  match lookupKV s.runs runID with
  | none => .error .runNotFound
  | some run => .ok run

/-- Go `MemoryStore.UpdateRun`: NotFound if absent, else replaces the
whole record. -/
def MemoryStore.UpdateRun (s : MemoryStore) (run : WorkflowRun) :
    Except StoreErr Unit × MemoryStore :=
  match lookupKV s.runs run.runID with
  | none => (.error .runNotFound, s)
  | some _ => (.ok (), { s with runs := insertKV s.runs run.runID run })

/-- Go `MemoryStore.UpdateRunStatus`: NotFound if absent; otherwise sets
the status and the error unconditionally (no terminal-status guard). -/
def MemoryStore.UpdateRunStatus (s : MemoryStore) (runID : String)
    (status : RunStatus) (err : Option WorkflowError) :
    Except StoreErr Unit × MemoryStore :=
  match lookupKV s.runs runID with
  | none => (.error .runNotFound, s)
  | some run =>
    let updated : WorkflowRun := { run with status := status, error := err }
    (.ok (), { s with runs := insertKV s.runs runID updated })

/-- Go `MemoryStore.CreateStepExecution`: creates the per-run map if
missing, then assigns the execution under its stepID. -/
def MemoryStore.CreateStepExecution (s : MemoryStore) (exec : StepExecution) :
    Except StoreErr Unit × MemoryStore :=
  let sub := (lookupKV s.stepExecutions exec.runID).getD []
  (.ok (),
    { s with stepExecutions :=
        insertKV s.stepExecutions exec.runID (insertKV sub exec.stepID exec) })

/-- Go `MemoryStore.GetStepExecution`: dedicated NotFound when the run has
no executions map or the stepID is absent. -/
def MemoryStore.GetStepExecution (s : MemoryStore) (runID stepID : String) :
    Except StoreErr StepExecution :=
  match lookupKV s.stepExecutions runID with
  | none => .error .stepExecutionNotFound
  | some sub =>
    match lookupKV sub stepID with
    | none => .error .stepExecutionNotFound
    | some exec => .ok exec

/-- Go `MemoryStore.UpdateStepExecution`: NotFound when the run has no
executions map; otherwise assigns (even for a fresh stepID). -/
def MemoryStore.UpdateStepExecution (s : MemoryStore) (exec : StepExecution) :
    Except StoreErr Unit × MemoryStore :=
  match lookupKV s.stepExecutions exec.runID with
  | none => (.error .stepExecutionNotFound, s)
  | some sub =>
    (.ok (),
      { s with stepExecutions :=
          insertKV s.stepExecutions exec.runID (insertKV sub exec.stepID exec) })

/-- Go `MemoryStore.ListStepExecutions`: empty list when the run has no
executions map; otherwise the stored executions sorted by
`executionIndex`. -/
def MemoryStore.ListStepExecutions (s : MemoryStore) (runID : String) :
    Except StoreErr (List StepExecution) :=
  match lookupKV s.stepExecutions runID with
  | none => .ok []
  | some sub => .ok (sortExecs (sub.map Prod.snd))

/-- Go `MemoryStore.SaveStepOutput`: creates the per-run map if missing,
then stores a copy of the bytes (upsert). -/
def MemoryStore.SaveStepOutput (s : MemoryStore) (runID stepID : String)
    (output : Bytes) : Except StoreErr Unit × MemoryStore :=
  let sub := (lookupKV s.stepOutputs runID).getD []
  (.ok (),
    { s with stepOutputs := insertKV s.stepOutputs runID (insertKV sub stepID output) })

/-- Go `MemoryStore.LoadStepOutput`: dedicated NotFound when the run has
no outputs map or the stepID is absent; else a copy of the bytes. -/
def MemoryStore.LoadStepOutput (s : MemoryStore) (runID stepID : String) :
    Except StoreErr Bytes :=
  match lookupKV s.stepOutputs runID with
  | none => .error .stepOutputNotFound
  | some sub =>
    match lookupKV sub stepID with
    | none => .error .stepOutputNotFound
    | some output => .ok output

/-- Go `MemoryStore.SaveState`: creates the per-run map if missing, then
stores a copy of the value (upsert). -/
def MemoryStore.SaveState (s : MemoryStore) (runID key : String)
    (value : Bytes) : Except StoreErr Unit × MemoryStore :=
  let sub := (lookupKV s.state runID).getD []
  (.ok (), { s with state := insertKV s.state runID (insertKV sub key value) })

/-- Go `MemoryStore.LoadState`: dedicated NotFound when the run has no
state map or the key is absent; else a copy of the bytes. -/
def MemoryStore.LoadState (s : MemoryStore) (runID key : String) :
    Except StoreErr Bytes :=
  match lookupKV s.state runID with
  | none => .error .stateNotFound
  | some sub =>
    match lookupKV sub key with
    | none => .error .stateNotFound
    | some value => .ok value

/-- Go `MemoryStore.DeleteState`: no error when the run has no state map;
otherwise removes the key. -/
def MemoryStore.DeleteState (s : MemoryStore) (runID key : String) :
    Except StoreErr Unit × MemoryStore :=
  match lookupKV s.state runID with
  | none => (.ok (), s)
  | some sub =>
    (.ok (), { s with state := insertKV s.state runID (eraseKV sub key) })

/-- Go `MemoryStore.GetAllState`: empty map when the run has no state map;
else a deep copy of it. -/
def MemoryStore.GetAllState (s : MemoryStore) (runID : String) :
    Except StoreErr (List (String × Bytes)) :=
  .ok ((lookupKV s.state runID).getD [])

/-! The store interface (`WorkflowStore`), restricted to the methods the
accessors call.  Every method is context-scoped, may fail, and may mutate
the store, so each operation is a state transformer on an abstract store
state `σ`. -/

/-- The slice of the Go `WorkflowStore` interface used by the per-run
accessors (`LoadStepOutput`, `GetStepExecution`, `SaveState`,
`LoadState`, `DeleteState`, `GetAllState`). -/
structure StoreOps (σ : Type) where
  loadStepOutput : σ → String → String → Except StoreErr Bytes × σ
  getStepExecution : σ → String → String → Except StoreErr StepExecution × σ
  saveState : σ → String → String → Bytes → Except StoreErr Unit × σ
  loadState : σ → String → String → Except StoreErr Bytes × σ
  deleteState : σ → String → String → Except StoreErr Unit × σ
  getAllState : σ → String → Except StoreErr (List (String × Bytes)) × σ

/-- The `MemoryStore` instance of the accessor-facing store interface. -/
def memStoreOps : StoreOps MemoryStore where
  loadStepOutput s runID stepID := (s.LoadStepOutput runID stepID, s)
  getStepExecution s runID stepID := (s.GetStepExecution runID stepID, s)
  saveState s runID key value := s.SaveState runID key value
  loadState s runID key := (s.LoadState runID key, s)
  deleteState s runID key := s.DeleteState runID key
  getAllState s runID := (s.GetAllState runID, s)

/-- Abstraction of `encoding/json` at the accessor boundary: `marshal`
models `json.Marshal` (which can fail on unsupported values) and
`unmarshal` models `json.Unmarshal` into a target of type `V`. -/
structure Codec (V : Type) where
  marshal : V → Option Bytes
  unmarshal : Bytes → Option V

/-- The trivial codec on raw bytes, a concrete `Codec` under which every
value round-trips; used to instantiate witnesses. -/
def bytesCodec : Codec Bytes where
  marshal v := some v
  unmarshal data := some data

/-! The per-run state accessor (`stateAccessor` in the root package):
`runID`, a bound store, and a byte cache keyed by state key. -/

/-- The mutable part of a Go `stateAccessor`: its runID and its cache. -/
structure StateAcc where
  runID : String
  cache : List (String × Bytes)
deriving DecidableEq, Repr

/-- Go `stateAccessor.Set`: marshal the value; on success update the
cache FIRST, then persist to the store; a store failure is returned as an
error but the cache entry keeps the new bytes. -/
def StateAcc.set {V σ : Type} (c : Codec V) (ops : StoreOps σ) (st : σ)
    (a : StateAcc) (key : String) (value : V) :
    Except StoreErr Unit × StateAcc × σ :=
  match c.marshal value with
  | none => (.error (.generic ("failed to marshal state value for key " ++ key)), a, st)
  | some data =>
    let a' : StateAcc := { a with cache := insertKV a.cache key data }
    match ops.saveState st a.runID key data with
    | (.ok _, st') => (.ok (), a', st')
    | (.error e, st') => (.error e, a', st')

/-- Go `stateAccessor.Get`: answer from the cache when present; otherwise
load from the store, cache the bytes, then unmarshal them. -/
def StateAcc.get {V σ : Type} (c : Codec V) (ops : StoreOps σ) (st : σ)
    (a : StateAcc) (key : String) : Except StoreErr V × StateAcc × σ :=
  match lookupKV a.cache key with
  | some data =>
    match c.unmarshal data with
    | some v => (.ok v, a, st)
    | none => (.error (.generic ("failed to unmarshal state for key " ++ key)), a, st)
  | none =>
    match ops.loadState st a.runID key with
    | (.error e, st') => (.error e, a, st')
    | (.ok data, st') =>
      let a' : StateAcc := { a with cache := insertKV a.cache key data }
      match c.unmarshal data with
      | some v => (.ok v, a', st')
      | none => (.error (.generic ("failed to unmarshal state for key " ++ key)), a', st')

/-- Go `stateAccessor.Delete`: purge the cache entry first, then delete
the store row. -/
def StateAcc.delete {σ : Type} (ops : StoreOps σ) (st : σ) (a : StateAcc)
    (key : String) : Except StoreErr Unit × StateAcc × σ :=
  let a' : StateAcc := { a with cache := eraseKV a.cache key }
  match ops.deleteState st a.runID key with
  | (.ok _, st') => (.ok (), a', st')
  | (.error e, st') => (.error e, a', st')

/-- Go `stateAccessor.Has`: true on a cache hit, otherwise true iff a
store load succeeds (no caching). -/
def StateAcc.has {σ : Type} (ops : StoreOps σ) (st : σ) (a : StateAcc)
    (key : String) : Bool × σ :=
  match lookupKV a.cache key with
  | some _ => (true, st)
  | none =>
    match ops.loadState st a.runID key with
    | (.ok _, st') => (true, st')
    | (.error _, st') => (false, st')

/-! The per-run step data accessor (`stepAccessor` in the root package):
`runID`, a bound store, an output cache and an input cache. -/

/-- The mutable part of a Go `stepAccessor`: its runID and its two byte
caches. -/
structure StepAcc where
  runID : String
  outputCache : List (String × Bytes)
  inputCache : List (String × Bytes)
deriving DecidableEq, Repr

/-- Go `stepAccessor.GetOutput`: answer from the output cache when
present; otherwise load from the store, cache the bytes, then unmarshal
them. -/
def StepAcc.getOutput {V σ : Type} (c : Codec V) (ops : StoreOps σ) (st : σ)
    (a : StepAcc) (stepID : String) : Except StoreErr V × StepAcc × σ :=
  match lookupKV a.outputCache stepID with
  | some data =>
    match c.unmarshal data with
    | some v => (.ok v, a, st)
    | none => (.error (.generic ("failed to unmarshal output for step " ++ stepID)), a, st)
  | none =>
    match ops.loadStepOutput st a.runID stepID with
    | (.error e, st') => (.error e, a, st')
    | (.ok data, st') =>
      let a' : StepAcc := { a with outputCache := insertKV a.outputCache stepID data }
      match c.unmarshal data with
      | some v => (.ok v, a', st')
      | none => (.error (.generic ("failed to unmarshal output for step " ++ stepID)), a', st')

/-- Go `stepAccessor.HasOutput`: true on an output-cache hit, otherwise
true iff a store load succeeds (no caching). -/
def StepAcc.hasOutput {σ : Type} (ops : StoreOps σ) (st : σ) (a : StepAcc)
    (stepID : String) : Bool × σ :=
  match lookupKV a.outputCache stepID with
  | some _ => (true, st)
  | none =>
    match ops.loadStepOutput st a.runID stepID with
    | (.ok _, st') => (true, st')
    | (.error _, st') => (false, st')

/-- Go `stepAccessor.GetInput`: answer from the input cache when present;
otherwise load the step execution record, require a non-nil input, cache
it, then unmarshal it. -/
def StepAcc.getInput {V σ : Type} (c : Codec V) (ops : StoreOps σ) (st : σ)
    (a : StepAcc) (stepID : String) : Except StoreErr V × StepAcc × σ :=
  match lookupKV a.inputCache stepID with
  | some data =>
    match c.unmarshal data with
    | some v => (.ok v, a, st)
    | none => (.error (.generic ("failed to unmarshal input for step " ++ stepID)), a, st)
  | none =>
    match ops.getStepExecution st a.runID stepID with
    | (.error e, st') => (.error e, a, st')
    | (.ok exec, st') =>
      match exec.input with
      | none => (.error (.generic ("no input found for step " ++ stepID)), a, st')
      | some data =>
        let a' : StepAcc := { a with inputCache := insertKV a.inputCache stepID data }
        match c.unmarshal data with
        | some v => (.ok v, a', st')
        | none => (.error (.generic ("failed to unmarshal input for step " ++ stepID)), a', st')

/-! Step execution config and the builder's config propagation
(`ExecutionConfig`, `DefaultExecutionConfig`, `WorkflowBuilder.Build`). -/

/-- Go `ExecutionConfig`.  `fallbackStepID` (Go `*string`) is an option;
the Go `==` comparison against the sentinel default compares the pointer,
which coincides with option equality because the sentinel holds `nil`. -/
structure ExecutionConfig where
  maxRetries : Int
  retryDelayMs : Int
  retryBackoff : String
  timeoutSeconds : Int
  maxConcurrency : Int
  continueOnError : Bool
  fallbackStepID : Option String
deriving DecidableEq, Repr

/-- Go `DefaultExecutionConfig`, the sentinel default config. -/
def DefaultExecutionConfig : ExecutionConfig :=
  { maxRetries := 3,
    retryDelayMs := 1000,
    retryBackoff := "LINEAR",
    timeoutSeconds := 30,
    maxConcurrency := 1,
    continueOnError := false,
    fallbackStepID := none }

/-- The config-propagation loop of Go `WorkflowBuilder.Build` (after
graph validation): for each stepID in the graph nodes, fail if the step
is not registered; otherwise, if the step still carries the sentinel
`DefaultExecutionConfig`, assign it the workflow default config by value;
explicitly configured steps are left untouched. -/
def propagateConfigs (wfConfig : ExecutionConfig)
    (steps : List (String × ExecutionConfig)) :
    List String → Except String (List (String × ExecutionConfig))
  | [] => .ok steps
  | n :: rest =>
    match lookupKV steps n with
    | none => .error ("step " ++ n ++ " referenced in graph but not registered")
    | some cfg =>
      let steps' :=
        if cfg = DefaultExecutionConfig then insertKV steps n wfConfig else steps
      propagateConfigs wfConfig steps' rest

/-! Theorems -/

theorem toInt64_eq_of_bounds (n : Int) (h1 : -9223372036854775808 ≤ n)
    (h2 : n < 9223372036854775808) : toInt64 n = n := by
  unfold toInt64
  rw [Int.emod_eq_of_lt (by omega) (by omega)]
  omega

/-- C3 counterexample: at base 1000 and attempt 64 the program wraps: Go
computes the EXPONENTIAL multiplier as `1 << 63`, which truncates to
`-2^63` in `int`, and the 64-bit duration product then wraps to 0,
whereas the claimed formula `base·2^(attempt-1)` is the nonzero value
`durationOfMs 1000 * 2^63`. -/
theorem claim_C3_counterexample :
    CalculateBackoff 1000 64 "EXPONENTIAL" = 0 ∧
    durationOfMs 1000 * (2 : Int) ^ ((64 : Int) - 1).toNat ≠ 0 := by
  constructor
  · decide
  · decide

/-- C3 (amended): for nonnegative attempts and positive base delays,
`CalculateBackoff` returns 0 for strategy NONE and for attempt 0, and
behaves as LINEAR on every unrecognized strategy string, for all inputs;
the LINEAR formula `base·a` and the EXPONENTIAL formula `base·2^(a-1)`
hold exactly whenever the mathematical delay in nanoseconds fits below
`2^63` (no int64 overflow); with overflow the 64-bit arithmetic wraps
instead. -/
theorem claim_C3_backoff_no_overflow (base a : Int) (s : String)
    (hbase : 0 < base) (ha : 0 ≤ a) :
    CalculateBackoff base a "NONE" = 0 ∧
    CalculateBackoff base 0 s = 0 ∧
    (1 ≤ a → durationOfMs base * a < 2 ^ 63 →
      CalculateBackoff base a "LINEAR" = durationOfMs base * a) ∧
    (1 ≤ a → durationOfMs base * (2 : Int) ^ (a - 1).toNat < 2 ^ 63 →
      CalculateBackoff base a "EXPONENTIAL" =
        durationOfMs base * (2 : Int) ^ (a - 1).toNat) ∧
    (s ≠ "NONE" → s ≠ "LINEAR" → s ≠ "EXPONENTIAL" →
      CalculateBackoff base a s = CalculateBackoff base a "LINEAR") := by
  have hpos : (0 : Int) < base * 1000000 := mul_pos hbase (by norm_num)
  refine ⟨?_, ?_, ?_, ?_, ?_⟩
  · by_cases h : a = 0 <;> simp [CalculateBackoff, h]
  · simp [CalculateBackoff]
  · intro h1 hbound
    have hne : a ≠ 0 := by omega
    have hB : (2 : Int) ^ 63 = 9223372036854775808 := by norm_num
    have hbound' : base * 1000000 * a < 9223372036854775808 := by
      unfold durationOfMs at hbound
      rw [hB] at hbound
      linarith
    have hub : base * 1000000 < 9223372036854775808 := by
      have hle : base * 1000000 ≤ base * 1000000 * a :=
        le_mul_of_one_le_right (le_of_lt hpos) h1
      linarith
    have hnn : (0 : Int) ≤ base * 1000000 * a :=
      mul_nonneg (le_of_lt hpos) (by omega)
    simp only [CalculateBackoff, if_neg hne]
    show toInt64 (toInt64 (base * 1000000) * a) = durationOfMs base * a
    rw [toInt64_eq_of_bounds (base * 1000000) (by linarith) hub]
    rw [toInt64_eq_of_bounds (base * 1000000 * a) (by linarith) hbound']
    unfold durationOfMs
    rfl
  · intro h1 hbound
    have hne : a ≠ 0 := by omega
    have hB : (2 : Int) ^ 63 = 9223372036854775808 := by norm_num
    have hkpos : (0 : Int) < 2 ^ (a - 1).toNat :=
      pow_pos (by norm_num) ((a - 1).toNat)
    have h2k1 : (1 : Int) ≤ 2 ^ (a - 1).toNat := by omega
    have hge1 : (1 : Int) ≤ base * 1000000 := by omega
    have hbound' :
        base * 1000000 * 2 ^ (a - 1).toNat < 9223372036854775808 := by
      unfold durationOfMs at hbound
      rw [hB] at hbound
      linarith
    have hmulub : (2 : Int) ^ (a - 1).toNat < 9223372036854775808 := by
      have hle : (2 : Int) ^ (a - 1).toNat ≤
          base * 1000000 * 2 ^ (a - 1).toNat :=
        le_mul_of_one_le_left (le_of_lt hkpos) hge1
      linarith
    have hub : base * 1000000 < 9223372036854775808 := by
      have hle : base * 1000000 ≤ base * 1000000 * 2 ^ (a - 1).toNat :=
        le_mul_of_one_le_right (le_of_lt hpos) h2k1
      linarith
    have hnn : (0 : Int) ≤ base * 1000000 * 2 ^ (a - 1).toNat :=
      mul_nonneg (le_of_lt hpos) (le_of_lt hkpos)
    simp only [CalculateBackoff, if_neg hne]
    show toInt64 (toInt64 (base * 1000000) * toInt64 ((2 : Int) ^ (a - 1).toNat)) =
      durationOfMs base * (2 : Int) ^ (a - 1).toNat
    rw [toInt64_eq_of_bounds (base * 1000000) (by linarith) hub]
    rw [toInt64_eq_of_bounds ((2 : Int) ^ (a - 1).toNat) (by linarith) hmulub]
    rw [toInt64_eq_of_bounds (base * 1000000 * 2 ^ (a - 1).toNat)
      (by linarith) hbound']
    unfold durationOfMs
    rfl
  · intro h1 h2 h3
    by_cases h : a = 0 <;> simp [CalculateBackoff, h, h1, h2, h3]

/-- Witness for the amended C3 at base 1000, attempt 3, strategy FOO
(no overflow). -/
theorem claim_C3_backoff_no_overflow_witness :
    CalculateBackoff 1000 3 "NONE" = 0 ∧
    CalculateBackoff 1000 0 "FOO" = 0 ∧
    CalculateBackoff 1000 3 "LINEAR" = durationOfMs 1000 * 3 ∧
    CalculateBackoff 1000 3 "EXPONENTIAL" =
      durationOfMs 1000 * (2 : Int) ^ ((3 : Int) - 1).toNat ∧
    CalculateBackoff 1000 3 "FOO" = CalculateBackoff 1000 3 "LINEAR" := by
  have h := claim_C3_backoff_no_overflow 1000 3 "FOO" (by decide) (by decide)
  exact ⟨h.1, h.2.1, h.2.2.1 (by decide) (by decide),
    h.2.2.2.1 (by decide) (by decide),
    h.2.2.2.2 (by decide) (by decide) (by decide)⟩

theorem propagateConfigs_lookup (w : ExecutionConfig) :
    ∀ (nodes : List String) (steps res : List (String × ExecutionConfig)),
      propagateConfigs w steps nodes = .ok res →
      ∀ (id : String) (cfg : ExecutionConfig), lookupKV steps id = some cfg →
      lookupKV res id =
        some (if id ∈ nodes then
                (if cfg = DefaultExecutionConfig then w else cfg)
              else cfg) := by
  intro nodes
  induction nodes with
  | nil =>
    intro steps res h id cfg hl
    simp only [propagateConfigs] at h
    cases h
    simpa using hl
  | cons n rest ih =>
    intro steps res h id cfg hl
    simp only [propagateConfigs] at h
    cases hn : lookupKV steps n with
    | none => rw [hn] at h; exact absurd h (by simp)
    | some cfgN =>
      rw [hn] at h
      by_cases hid : id = n
      · subst hid
        have hcfg : cfg = cfgN := by
          rw [hl] at hn; exact Option.some.inj hn
        subst hcfg
        by_cases hd : cfg = DefaultExecutionConfig
        · simp only [hd, if_true] at h
          have := ih _ _ h id w (lookupKV_insertKV steps id w)
          rw [this]
          by_cases hW : id ∈ rest
          · by_cases hWD : w = DefaultExecutionConfig <;>
              simp [hW, hWD, hd]
          · simp [hW, hd]
        · simp only [hd, if_false] at h
          have := ih _ _ h id cfg hl
          rw [this]
          by_cases hW : id ∈ rest <;> simp [hW, hd]
      · have hl' :
            lookupKV (if cfgN = DefaultExecutionConfig
                      then insertKV steps n w else steps) id = some cfg := by
          by_cases hd : cfgN = DefaultExecutionConfig
          · rw [if_pos hd, lookupKV_insertKV_ne steps n id w
              (fun hEq => hid hEq.symm)]
            exact hl
          · rw [if_neg hd]; exact hl
        have := ih _ _ h id cfg hl'
        rw [this]
        have hmem : (id ∈ n :: rest) ↔ (id ∈ rest) := by
          simp [List.mem_cons, hid]
        by_cases hW : id ∈ rest <;> simp [hmem, hW]

/-- C8: when `Build` finalizes a workflow, every graph step still carrying
the sentinel `DefaultExecutionConfig` is assigned the workflow default
config, and every step with an explicitly modified (non-default) config
keeps its own config unchanged.  (Assignment is by value: in this pure
model a step holds its own copy of the config record.) -/
theorem claim_C8_build_config_propagation (w : ExecutionConfig)
    (nodes : List String) (steps res : List (String × ExecutionConfig))
    (h : propagateConfigs w steps nodes = .ok res)
    (id : String) (cfg : ExecutionConfig)
    (hstep : lookupKV steps id = some cfg) (hmem : id ∈ nodes) :
    lookupKV res id = some (if cfg = DefaultExecutionConfig then w else cfg) := by
  have := propagateConfigs_lookup w nodes steps res h id cfg hstep
  rwa [if_pos hmem] at this

/-- Witness for C8: a two-step workflow where step a still has the
sentinel default config and step b was explicitly configured. -/
theorem claim_C8_build_config_propagation_witness :
    lookupKV
      [("a", { DefaultExecutionConfig with maxRetries := 7 }),
       ("b", { DefaultExecutionConfig with timeoutSeconds := 99 })] "a" =
      some (if DefaultExecutionConfig = DefaultExecutionConfig
            then { DefaultExecutionConfig with maxRetries := 7 }
            else DefaultExecutionConfig) ∧
    lookupKV
      [("a", { DefaultExecutionConfig with maxRetries := 7 }),
       ("b", { DefaultExecutionConfig with timeoutSeconds := 99 })] "b" =
      some (if ({ DefaultExecutionConfig with timeoutSeconds := 99 } :
                ExecutionConfig) = DefaultExecutionConfig
            then { DefaultExecutionConfig with maxRetries := 7 }
            else { DefaultExecutionConfig with timeoutSeconds := 99 }) := by
  constructor
  · exact claim_C8_build_config_propagation
      ({ DefaultExecutionConfig with maxRetries := 7 }) ["a", "b"]
      [("a", DefaultExecutionConfig),
       ("b", { DefaultExecutionConfig with timeoutSeconds := 99 })]
      _ rfl "a" DefaultExecutionConfig (by decide) (by decide)
  · exact claim_C8_build_config_propagation
      ({ DefaultExecutionConfig with maxRetries := 7 }) ["a", "b"]
      [("a", DefaultExecutionConfig),
       ("b", { DefaultExecutionConfig with timeoutSeconds := 99 })]
      _ rfl "b" ({ DefaultExecutionConfig with timeoutSeconds := 99 })
      (by decide) (by decide)

/-- A sample run record used to instantiate store properties. -/
def runDemo : WorkflowRun :=
  { runID := "r1",
    workflowID := "wf",
    workflowVersion := "1.0",
    status := .pending,
    progress := 0,
    createdAt := 0,
    startedAt := none,
    completedAt := none,
    updatedAt := 0,
    input := none,
    output := none,
    error := none,
    resourceID := "",
    tags := none,
    context := none }

/-- A run with its status and error replaced, as
`MemoryStore.UpdateRunStatus` writes it. -/
def withStatus (run : WorkflowRun) (status : RunStatus)
    (err : Option WorkflowError) : WorkflowRun :=
  { run with status := status, error := err }

/-- Store after creating `runDemo`. -/
def c2s1 : MemoryStore := (MemoryStore.CreateRun MemoryStore.newStore runDemo).2

/-- Store after transitioning `r1` to COMPLETED (a terminal status). -/
def c2s2 : MemoryStore :=
  (MemoryStore.UpdateRunStatus c2s1 "r1" .completed none).2

/-- Store after a second status update, performed on the already-terminal
run. -/
def c2s3 : MemoryStore :=
  (MemoryStore.UpdateRunStatus c2s2 "r1" .failed none).2

/-- C2 counterexample: on the in-memory store, a run moved to the terminal
status COMPLETED is then moved again, by a plain `UpdateRunStatus` call,
to FAILED — a second transition into a terminal status, and a transition
out of a terminal status, both succeeding with no guard. -/
theorem claim_C2_counterexample :
    (MemoryStore.GetRun c2s2 "r1").toOption.map WorkflowRun.status =
      some RunStatus.completed ∧
    RunStatus.IsTerminal RunStatus.completed = true ∧
    (MemoryStore.UpdateRunStatus c2s2 "r1" RunStatus.failed none).1 = .ok () ∧
    (MemoryStore.GetRun c2s3 "r1").toOption.map WorkflowRun.status =
      some RunStatus.failed ∧
    RunStatus.IsTerminal RunStatus.failed = true ∧
    RunStatus.failed ≠ RunStatus.completed :=
  ⟨rfl, rfl, rfl, rfl, rfl, by decide⟩

/-- C2 (amended): `MemoryStore.UpdateRunStatus` performs no terminal-status
guard — on any existing run, whatever its current status (terminal
included), it unconditionally overwrites the status and error and
succeeds; the at-most-one-terminal-transition invariant is left to the
callers of the store. -/
theorem claim_C2_update_run_status_unguarded (s : MemoryStore)
    (runID : String) (status : RunStatus) (err : Option WorkflowError)
    (run : WorkflowRun) (h : lookupKV s.runs runID = some run) :
    MemoryStore.UpdateRunStatus s runID status err =
      (.ok (),
        { s with runs := insertKV s.runs runID (withStatus run status err) }) ∧
    MemoryStore.GetRun (MemoryStore.UpdateRunStatus s runID status err).2 runID =
      .ok (withStatus run status err) := by
  constructor
  · simp [MemoryStore.UpdateRunStatus, h, withStatus]
  · simp [MemoryStore.UpdateRunStatus, h, MemoryStore.GetRun, withStatus,
      lookupKV_insertKV]

/-- The completed `runDemo`, as stored in `c2s2`. -/
def runDemoCompleted : WorkflowRun := withStatus runDemo .completed none

/-- Witness for the amended C2, at a store whose run `r1` is already in
the terminal status COMPLETED. -/
theorem claim_C2_update_run_status_unguarded_witness :
    lookupKV c2s2.runs "r1" = some runDemoCompleted ∧
    RunStatus.IsTerminal runDemoCompleted.status = true ∧
    MemoryStore.UpdateRunStatus c2s2 "r1" .failed none =
      (.ok (),
        { c2s2 with runs := insertKV c2s2.runs "r1" (withStatus runDemoCompleted .failed none) }) := by
  refine ⟨rfl, rfl, ?_⟩
  exact (claim_C2_update_run_status_unguarded c2s2 "r1" .failed none
    runDemoCompleted rfl).1

/-- C4: on the in-memory store, a created run read back by its runId is
the identical record, and a saved step output loaded back is the
identical byte string. -/
theorem claim_C4_store_round_trip (s : MemoryStore) (run : WorkflowRun)
    (runID stepID : String) (b : Bytes)
    (hok : (MemoryStore.CreateRun s run).1 = .ok ()) :
    MemoryStore.GetRun (MemoryStore.CreateRun s run).2 run.runID = .ok run ∧
    MemoryStore.LoadStepOutput (MemoryStore.SaveStepOutput s runID stepID b).2
      runID stepID = .ok b := by
  constructor
  · cases hl : lookupKV s.runs run.runID with
    | some r0 => simp [MemoryStore.CreateRun, hl] at hok
    | none =>
      simp [MemoryStore.CreateRun, hl, MemoryStore.GetRun, lookupKV_insertKV]
  · simp [MemoryStore.SaveStepOutput, MemoryStore.LoadStepOutput,
      lookupKV_insertKV]

/-- Witness for C4 on the empty store with `runDemo` and bytes `[1, 2]`. -/
theorem claim_C4_store_round_trip_witness :
    MemoryStore.GetRun (MemoryStore.CreateRun MemoryStore.newStore runDemo).2
      runDemo.runID = .ok runDemo ∧
    MemoryStore.LoadStepOutput
      (MemoryStore.SaveStepOutput MemoryStore.newStore "r1" "a" [1, 2]).2
      "r1" "a" = .ok [1, 2] :=
  claim_C4_store_round_trip MemoryStore.newStore runDemo "r1" "a" [1, 2] rfl

/-- C5: `ListStepExecutions` returns the run's executions sorted by
`executionIndex` ascending; when the stored executions of the run carry
pairwise-distinct indexes (which the engine guarantees by assigning
indexes in scheduling order), the returned sequence is strictly
increasing and free of duplicates. -/
theorem claim_C5_list_step_executions_sorted (s : MemoryStore)
    (runID : String) (l : List StepExecution)
    (h : MemoryStore.ListStepExecutions s runID = .ok l) :
    l.Pairwise execLE ∧
    ((((lookupKV s.stepExecutions runID).getD []).map Prod.snd).Pairwise
        (fun a b => a.executionIndex ≠ b.executionIndex) →
      l.Pairwise (fun a b => a.executionIndex < b.executionIndex) ∧
      l.Nodup) := by
  cases hs : lookupKV s.stepExecutions runID with
  | none =>
    simp only [MemoryStore.ListStepExecutions, hs, Except.ok.injEq] at h
    subst h
    exact ⟨List.Pairwise.nil, fun _ => ⟨List.Pairwise.nil, List.nodup_nil⟩⟩
  | some sub =>
    simp only [MemoryStore.ListStepExecutions, hs, Except.ok.injEq] at h
    subst h
    refine ⟨sortExecs_pairwise _, ?_⟩
    intro hdist
    simp only [hs, Option.getD_some] at hdist
    have hperm := sortExecs_perm (sub.map Prod.snd)
    have hne : (sortExecs (sub.map Prod.snd)).Pairwise
        (fun a b => a.executionIndex ≠ b.executionIndex) :=
      (hperm.pairwise_iff (fun hab he => hab he.symm)).mpr hdist
    have hlt : (sortExecs (sub.map Prod.snd)).Pairwise
        (fun a b => a.executionIndex < b.executionIndex) :=
      ((sortExecs_pairwise (sub.map Prod.snd)).and hne).imp
        (fun hab => lt_of_le_of_ne hab.1 hab.2)
    refine ⟨hlt, ?_⟩
    exact hlt.imp (fun hab he => by subst he; exact lt_irrefl _ hab)

/-- A step execution record for witnesses: index `i` of step `stepID`. -/
def execDemo (stepID : String) (i : Int) : StepExecution :=
  { runID := "r1",
    stepID := stepID,
    executionIndex := i,
    status := .completed,
    startedAt := none,
    completedAt := none,
    durationMs := 0,
    input := none,
    output := none,
    error := none,
    attempt := 0,
    createdAt := 0,
    updatedAt := 0 }

/-- Store holding two executions of run `r1`, inserted out of index
order. -/
def c5Store : MemoryStore :=
  (MemoryStore.CreateStepExecution
    (MemoryStore.CreateStepExecution MemoryStore.newStore
      (execDemo "b" 1)).2
    (execDemo "a" 0)).2

/-- Witness for C5: listing the two executions of `r1` yields them in
index order 0, 1, strictly increasing and duplicate-free. -/
theorem claim_C5_list_step_executions_sorted_witness :
    ([execDemo "a" 0, execDemo "b" 1] : List StepExecution).Pairwise execLE ∧
    ((((lookupKV c5Store.stepExecutions "r1").getD []).map Prod.snd).Pairwise
        (fun a b => a.executionIndex ≠ b.executionIndex) →
      ([execDemo "a" 0, execDemo "b" 1] : List StepExecution).Pairwise
        (fun a b => a.executionIndex < b.executionIndex) ∧
      ([execDemo "a" 0, execDemo "b" 1] : List StepExecution).Nodup) :=
  claim_C5_list_step_executions_sorted c5Store "r1"
    [execDemo "a" 0, execDemo "b" 1] rfl

/-- C6: each store read of a missing entity returns the dedicated
NotFound error of its entity kind: missing run, missing step execution,
missing step output, missing state key. -/
theorem claim_C6_not_found_errors (s : MemoryStore)
    (runID stepID outStepID key : String)
    (h1 : lookupKV s.runs runID = none)
    (h2 : (lookupKV s.stepExecutions runID).bind
      (fun sub => lookupKV sub stepID) = none)
    (h3 : (lookupKV s.stepOutputs runID).bind
      (fun sub => lookupKV sub outStepID) = none)
    (h4 : (lookupKV s.state runID).bind
      (fun sub => lookupKV sub key) = none) :
    MemoryStore.GetRun s runID = .error .runNotFound ∧
    MemoryStore.GetStepExecution s runID stepID =
      .error .stepExecutionNotFound ∧
    MemoryStore.LoadStepOutput s runID outStepID =
      .error .stepOutputNotFound ∧
    MemoryStore.LoadState s runID key = .error .stateNotFound := by
  refine ⟨?_, ?_, ?_, ?_⟩
  · simp [MemoryStore.GetRun, h1]
  · cases hs : lookupKV s.stepExecutions runID with
    | none => simp [MemoryStore.GetStepExecution, hs]
    | some sub =>
      rw [hs] at h2
      simp only [Option.some_bind] at h2
      simp [MemoryStore.GetStepExecution, hs, h2]
  · cases hs : lookupKV s.stepOutputs runID with
    | none => simp [MemoryStore.LoadStepOutput, hs]
    | some sub =>
      rw [hs] at h3
      simp only [Option.some_bind] at h3
      simp [MemoryStore.LoadStepOutput, hs, h3]
  · cases hs : lookupKV s.state runID with
    | none => simp [MemoryStore.LoadState, hs]
    | some sub =>
      rw [hs] at h4
      simp only [Option.some_bind] at h4
      simp [MemoryStore.LoadState, hs, h4]

/-- Witness for C6 on the empty store: every read misses and returns its
dedicated NotFound error. -/
theorem claim_C6_not_found_errors_witness :
    MemoryStore.GetRun MemoryStore.newStore "nope" = .error .runNotFound ∧
    MemoryStore.GetStepExecution MemoryStore.newStore "nope" "s1" =
      .error .stepExecutionNotFound ∧
    MemoryStore.LoadStepOutput MemoryStore.newStore "nope" "s1" =
      .error .stepOutputNotFound ∧
    MemoryStore.LoadState MemoryStore.newStore "nope" "k" =
      .error .stateNotFound :=
  claim_C6_not_found_errors MemoryStore.newStore "nope" "s1" "s1" "k"
    rfl rfl rfl rfl

/-- C10: `MemoryStore.CreateRun` on an already-existing runId returns an
error and leaves the whole store — the run record and all per-run maps —
exactly as it was. -/
theorem claim_C10_create_run_existing (s : MemoryStore) (run : WorkflowRun)
    (h : (lookupKV s.runs run.runID).isSome = true) :
    (MemoryStore.CreateRun s run).1 =
      .error (.generic ("workflow run " ++ run.runID ++ " already exists")) ∧
    (MemoryStore.CreateRun s run).2 = s := by
  cases hl : lookupKV s.runs run.runID with
  | none => rw [hl] at h; simp at h
  | some r0 => simp [MemoryStore.CreateRun, hl]

/-- Witness for C10: re-creating `runDemo` in a store that already holds
it errors and leaves the store untouched. -/
theorem claim_C10_create_run_existing_witness :
    (MemoryStore.CreateRun c2s1 runDemo).1 =
      .error (.generic ("workflow run " ++ runDemo.runID ++ " already exists")) ∧
    (MemoryStore.CreateRun c2s1 runDemo).2 = c2s1 :=
  claim_C10_create_run_existing c2s1 runDemo rfl

/-- A store implementation whose `SaveState` always fails — a legitimate
instance of the store contract, under which every method may fail. -/
def failSaveOps : StoreOps Unit where
  loadStepOutput _ _ _ := (.error (.generic "unavailable"), ())
  getStepExecution _ _ _ := (.error (.generic "unavailable"), ())
  saveState _ _ _ _ := (.error (.generic "save failed"), ())
  loadState _ _ _ := (.error (.generic "unavailable"), ())
  deleteState _ _ _ := (.error (.generic "unavailable"), ())
  getAllState _ _ := (.error (.generic "unavailable"), ())

/-- A state accessor whose cache already holds bytes `[1]` under key
`k`. -/
def c1AccBefore : StateAcc := { runID := "r1", cache := [("k", [1])] }

/-- C1 counterexample: `Set` on a store whose write fails does return an
error, but the cache entry for the key HAS been updated to the new bytes
(the Go code updates the cache before persisting), contradicting the
claim that the cached bytes stay as they were before the call. -/
theorem claim_C1_counterexample :
    (StateAcc.set bytesCodec failSaveOps () c1AccBefore "k" [2]).1 =
      .error (.generic "save failed") ∧
    ((StateAcc.set bytesCodec failSaveOps () c1AccBefore "k" [2]).2.1).cache =
      [("k", [2])] ∧
    ([("k", [2])] : List (String × Bytes)) ≠ c1AccBefore.cache :=
  ⟨rfl, rfl, by decide⟩

/-- C1 (amended): `Set(k, v)` updates the cache entry for `k` to the
marshalled bytes FIRST and then writes the store; it succeeds exactly
when the store write succeeds, propagates the store's error on failure,
and in the failure case the cache entry for `k` has already been updated
to the new bytes (it is not rolled back). -/
theorem claim_C1_set_cache_before_store {V σ : Type} (c : Codec V)
    (ops : StoreOps σ) (st : σ) (a : StateAcc) (key : String) (v : V)
    (data : Bytes) (hm : c.marshal v = some data) :
    ((StateAcc.set c ops st a key v).2.1).cache = insertKV a.cache key data ∧
    (StateAcc.set c ops st a key v).2.2 = (ops.saveState st a.runID key data).2 ∧
    ((StateAcc.set c ops st a key v).1 = .ok () ↔
      (ops.saveState st a.runID key data).1 = .ok ()) ∧
    (∀ e, (ops.saveState st a.runID key data).1 = .error e →
      (StateAcc.set c ops st a key v).1 = .error e) := by
  rcases hsv : ops.saveState st a.runID key data with ⟨e | u, st'⟩
  · refine ⟨?_, ?_, ?_, ?_⟩
    · simp [StateAcc.set, hm, hsv]
    · simp [StateAcc.set, hm, hsv]
    · simp [StateAcc.set, hm, hsv]
    · intro e' he'
      dsimp only at he'
      simp only [Except.error.injEq] at he'
      subst he'
      simp [StateAcc.set, hm, hsv]
  · refine ⟨?_, ?_, ?_, ?_⟩
    · simp [StateAcc.set, hm, hsv]
    · simp [StateAcc.set, hm, hsv]
    · simp [StateAcc.set, hm, hsv]
    · intro e' he'
      simp at he'

/-- Witness for the amended C1 on the always-failing store: the cache is
updated, the store error is surfaced. -/
theorem claim_C1_set_cache_before_store_witness :
    ((StateAcc.set bytesCodec failSaveOps () c1AccBefore "k" [2]).2.1).cache =
      insertKV c1AccBefore.cache "k" [2] ∧
    (StateAcc.set bytesCodec failSaveOps () c1AccBefore "k" [2]).2.2 =
      (failSaveOps.saveState () c1AccBefore.runID "k" [2]).2 ∧
    (StateAcc.set bytesCodec failSaveOps () c1AccBefore "k" [2]).1 =
      .error (.generic "save failed") := by
  have h := claim_C1_set_cache_before_store bytesCodec failSaveOps ()
    c1AccBefore "k" ([2] : Bytes) [2] rfl
  exact ⟨h.1, h.2.1, h.2.2.2 (.generic "save failed") rfl⟩

/-- C7: on the state accessor over the in-memory store, for every value
that round-trips through the codec, `Get(k)` after a successful
`Set(k, v)` returns `v`; and `Has(k)` after `Delete(k)` (which always
succeeds) returns false. -/
theorem claim_C7_state_accessor_laws {V : Type} (c : Codec V)
    (st : MemoryStore) (a : StateAcc) (key : String) (v : V) (data : Bytes)
    (hm : c.marshal v = some data) (hu : c.unmarshal data = some v) :
    (StateAcc.set c memStoreOps st a key v).1 = .ok () ∧
    (StateAcc.get c memStoreOps
      (StateAcc.set c memStoreOps st a key v).2.2
      (StateAcc.set c memStoreOps st a key v).2.1 key).1 = .ok v ∧
    (StateAcc.delete memStoreOps st a key).1 = .ok () ∧
    (StateAcc.has memStoreOps
      (StateAcc.delete memStoreOps st a key).2.2
      (StateAcc.delete memStoreOps st a key).2.1 key).1 = false := by
  refine ⟨?_, ?_, ?_, ?_⟩
  · simp [StateAcc.set, hm, memStoreOps, MemoryStore.SaveState]
  · simp [StateAcc.set, hm, memStoreOps, MemoryStore.SaveState,
      StateAcc.get, lookupKV_insertKV, hu]
  · cases hsub : lookupKV st.state a.runID with
    | none => simp [StateAcc.delete, memStoreOps, MemoryStore.DeleteState, hsub]
    | some sub => simp [StateAcc.delete, memStoreOps, MemoryStore.DeleteState, hsub]
  · cases hsub : lookupKV st.state a.runID with
    | none =>
      simp [StateAcc.delete, memStoreOps, MemoryStore.DeleteState, hsub,
        StateAcc.has, lookupKV_eraseKV, MemoryStore.LoadState]
    | some sub =>
      simp [StateAcc.delete, memStoreOps, MemoryStore.DeleteState, hsub,
        StateAcc.has, lookupKV_eraseKV, MemoryStore.LoadState,
        lookupKV_insertKV]

/-- Witness for C7 with the bytes codec on the empty store and a fresh
accessor. -/
theorem claim_C7_state_accessor_laws_witness :
    (StateAcc.set bytesCodec memStoreOps MemoryStore.newStore
      ({ runID := "r1", cache := [] }) "k" [5]).1 = .ok () ∧
    (StateAcc.get bytesCodec memStoreOps
      (StateAcc.set bytesCodec memStoreOps MemoryStore.newStore
        ({ runID := "r1", cache := [] }) "k" [5]).2.2
      (StateAcc.set bytesCodec memStoreOps MemoryStore.newStore
        ({ runID := "r1", cache := [] }) "k" [5]).2.1 "k").1 = .ok [5] ∧
    (StateAcc.delete memStoreOps MemoryStore.newStore
      ({ runID := "r1", cache := [] }) "k").1 = .ok () ∧
    (StateAcc.has memStoreOps
      (StateAcc.delete memStoreOps MemoryStore.newStore
        ({ runID := "r1", cache := [] }) "k").2.2
      (StateAcc.delete memStoreOps MemoryStore.newStore
        ({ runID := "r1", cache := [] }) "k").2.1 "k").1 = false :=
  claim_C7_state_accessor_laws bytesCodec MemoryStore.newStore
    ({ runID := "r1", cache := [] }) "k" [5] [5] rfl rfl

theorem getOutput_ok_cached {V σ : Type} (c : Codec V) (ops : StoreOps σ)
    (st : σ) (a : StepAcc) (stepID : String) (v : V) (a' : StepAcc) (st1 : σ)
    (h : StepAcc.getOutput c ops st a stepID = (.ok v, a', st1)) :
    ∃ data, lookupKV a'.outputCache stepID = some data ∧
      c.unmarshal data = some v := by
  unfold StepAcc.getOutput at h
  cases hc : lookupKV a.outputCache stepID with
  | some data =>
    rw [hc] at h
    dsimp only at h
    cases hu : c.unmarshal data with
    | some v0 =>
      rw [hu] at h
      dsimp only at h
      simp only [Prod.mk.injEq, Except.ok.injEq] at h
      obtain ⟨hv, ha, hst⟩ := h
      exact ⟨data, ha ▸ hc, hv ▸ hu⟩
    | none =>
      rw [hu] at h
      dsimp only at h
      simp at h
  | none =>
    rw [hc] at h
    dsimp only at h
    rcases hload : ops.loadStepOutput st a.runID stepID with ⟨e | data, st'⟩
    · rw [hload] at h
      dsimp only at h
      simp at h
    · rw [hload] at h
      dsimp only at h
      cases hu : c.unmarshal data with
      | some v0 =>
        rw [hu] at h
        dsimp only at h
        simp only [Prod.mk.injEq, Except.ok.injEq] at h
        obtain ⟨hv, ha, hst⟩ := h
        refine ⟨data, ?_, hv ▸ hu⟩
        rw [← ha]
        exact lookupKV_insertKV a.outputCache stepID data
      | none =>
        rw [hu] at h
        dsimp only at h
        simp at h

/-- C9: once `GetOutput(stepId)` has succeeded on a step data accessor,
every later `GetOutput` and `HasOutput` for that step is answered from
the accessor's cached bytes without consulting the store: against ANY
store and store state (in particular one where the step output was
overwritten), the accessor returns the same value, leaves itself
unchanged, and reports the output as present. -/
theorem claim_C9_get_output_cached {V σ σ2 : Type} (c : Codec V)
    (ops : StoreOps σ) (st : σ) (a : StepAcc) (stepID : String) (v : V)
    (a' : StepAcc) (st1 : σ)
    (h : StepAcc.getOutput c ops st a stepID = (.ok v, a', st1))
    (ops2 : StoreOps σ2) (st2 : σ2) :
    StepAcc.getOutput c ops2 st2 a' stepID = (.ok v, a', st2) ∧
    StepAcc.hasOutput ops2 st2 a' stepID = (true, st2) := by
  obtain ⟨data, hd, hu⟩ := getOutput_ok_cached c ops st a stepID v a' st1 h
  constructor
  · simp [StepAcc.getOutput, hd, hu]
  · simp [StepAcc.hasOutput, hd]

/-- Store holding output `[7]` for step `a` of run `r1`. -/
def c9Store : MemoryStore :=
  (MemoryStore.SaveStepOutput MemoryStore.newStore "r1" "a" [7]).2

/-- The same store after the output of step `a` is overwritten with
`[9]`. -/
def c9StoreOverwritten : MemoryStore :=
  (MemoryStore.SaveStepOutput c9Store "r1" "a" [9]).2

/-- The accessor after its first successful `GetOutput` of step `a`. -/
def c9AccAfter : StepAcc :=
  { runID := "r1", outputCache := [("a", [7])], inputCache := [] }

/-- Witness for C9: after reading `[7]` once, the accessor still answers
`[7]` and `true` against the store in which the output was overwritten
with `[9]`. -/
theorem claim_C9_get_output_cached_witness :
    StepAcc.getOutput bytesCodec memStoreOps c9StoreOverwritten c9AccAfter "a" =
      (.ok [7], c9AccAfter, c9StoreOverwritten) ∧
    StepAcc.hasOutput memStoreOps c9StoreOverwritten c9AccAfter "a" =
      (true, c9StoreOverwritten) :=
  claim_C9_get_output_cached bytesCodec memStoreOps c9Store
    ({ runID := "r1", outputCache := [], inputCache := [] }) "a" [7]
    c9AccAfter c9Store rfl memStoreOps c9StoreOverwritten

end Gorkflow
